import Mathlib

/-
Verification of the uncoupling repository: a Django application that syncs
MercadoLibre orders, questions and notifications for authenticated sellers.

Modelling conventions used by this shallow embedding:
  - JSON documents returned by the MercadoLibre REST API are modelled by the
    inductive type JValue; JSON numbers are modelled as integers (the claims
    under verification only compare numeric values for equality, never for
    floating point behaviour), python Decimal conversion of a number is the
    identity on this model.
  - datetime values are modelled as their ISO text form; datetime.fromisoformat
    is modelled as the identity on the normalized string, and clock values that
    participate in arithmetic (token expiry) are modelled as integer seconds.
  - the database is modelled as explicit in-memory tables (lists of rows);
    Django update_or_create, get_or_create, filter and delete are translated
    into the corresponding list operations.
  - HTTP traffic is modelled explicitly: a client is a function from request
    URLs to response JSON bodies, and each operation returns the list of GET
    requests it performed, so that claims about the number of HTTP calls can
    be stated.  raise_for_status is abstracted by working with the successful
    response body.
  - python exceptions (Django DoesNotExist, pydantic ValidationError, failed
    assert statements, KeyError) are modelled by Option: none is the raised
    exception.
-/

-- ========== JSON model ==========

inductive JValue where
  | jnull : JValue
  | jbool (b : Bool) : JValue
  | jnum (n : Int) : JValue
  | jstr (s : String) : JValue
  | jarr (elems : List JValue) : JValue
  | jobj (fields : List (String × JValue)) : JValue
  deriving Repr

abbrev JObject := List (String × JValue)

/-- Dictionary lookup on a JSON object, python dict subscript or dict.get. -/
def jlookup (o : JObject) (key : String) : Option JValue :=
  (o.find? (fun p => p.1 == key)).map (fun p => p.2)

/-- python dict.get(key, default) where a string is expected. -/
def jGetStr (o : JObject) (key dflt : String) : String :=
  match jlookup o key with
  | some (JValue.jstr s) => s
  | _ => dflt

/-- python dict.get(key) where an integer is expected, None when absent. -/
def jGetOptInt (o : JObject) (key : String) : Option Int :=
  match jlookup o key with
  | some (JValue.jnum n) => some n
  | _ => none

-- pydantic style field extraction; none models a ValidationError.

/-- Required int field. -/
def reqInt (o : JObject) (key : String) : Option Int :=
  match jlookup o key with
  | some (JValue.jnum n) => some n
  | _ => none

/-- Required str field. -/
def reqStr (o : JObject) (key : String) : Option String :=
  match jlookup o key with
  | some (JValue.jstr s) => some s
  | _ => none

/-- Required dict field. -/
def reqObj (o : JObject) (key : String) : Option JObject :=
  match jlookup o key with
  | some (JValue.jobj f) => some f
  | _ => none

/-- Optional str field with default None. -/
def optStr (o : JObject) (key : String) : Option (Option String) :=
  match jlookup o key with
  | none => some none
  | some JValue.jnull => some none
  | some (JValue.jstr s) => some (some s)
  | some _ => none

/-- Optional int (or float) field with default None. -/
def optInt (o : JObject) (key : String) : Option (Option Int) :=
  match jlookup o key with
  | none => some none
  | some JValue.jnull => some none
  | some (JValue.jnum n) => some (some n)
  | some _ => none

/-- Optional dict field with default None. -/
def optObj (o : JObject) (key : String) : Option (Option JObject) :=
  match jlookup o key with
  | none => some none
  | some JValue.jnull => some none
  | some (JValue.jobj f) => some (some f)
  | some _ => none

/-- Str field with a default value. -/
def strD (o : JObject) (key dflt : String) : Option String :=
  match jlookup o key with
  | none => some dflt
  | some (JValue.jstr s) => some s
  | some _ => none

/-- Required list field. -/
def arrReq (o : JObject) (key : String) : Option (List JValue) :=
  match jlookup o key with
  | some (JValue.jarr xs) => some xs
  | _ => none

/-- List field defaulting to the empty list. -/
def arrD (o : JObject) (key : String) : Option (List JValue) :=
  match jlookup o key with
  | none => some []
  | some (JValue.jarr xs) => some xs
  | some _ => none

-- ========== mercadolibre/client.py ==========

namespace Meli

/-- MeliToken pydantic model (mercadolibre/client.py); expires_at is modelled
as integer seconds of UTC time. -/
structure MeliToken where
  user_id : Int
  access_token : String
  refresh_token : String
  expires_at : Int
  deriving Repr, DecidableEq

/-- Django settings consumed by MeliClient. -/
structure Settings where
  client_id : String
  client_secret : String
  redirect_uri : String
  deriving Repr, DecidableEq

/-- Fields of a MeliToken that a request could reference. -/
inductive TokenField where
  | access_token : TokenField
  | refresh_token : TokenField
  | user_id : TokenField
  | expires_at : TokenField
  deriving Repr, DecidableEq

/-- Provenance of a value placed in an outgoing HTTP request by MeliClient.
Each constructor names one source the client code draws on. -/
inductive DataValue where
  | const (s : String) : DataValue
  | authCode : DataValue
  | clientId : DataValue
  | clientSecret : DataValue
  | redirectUri : DataValue
  | reqPath : DataValue
  | tokenField (f : TokenField) : DataValue
  | bearer (f : TokenField) : DataValue
  deriving Repr, DecidableEq

/-- Template of one HTTP request issued by a MeliClient method, transcribed
from the request construction code in mercadolibre/client.py. -/
structure RequestTemplate where
  method : String
  url : DataValue
  body : List (String × DataValue)
  headers : List (String × DataValue)
  deriving Repr, DecidableEq

def MELI_BASE_URL : String := "https://api.mercadolibre.com"

def tokenUrl : String := MELI_BASE_URL ++ "/oauth/token"

/-- The POST of MeliClient.get_token: code exchanged with
grant_type authorization_code at the oauth token endpoint. -/
def get_token_template : RequestTemplate :=
  { method := "POST"
  , url := DataValue.const tokenUrl
  , body :=
      [ ("grant_type", DataValue.const "authorization_code")
      , ("client_id", DataValue.clientId)
      , ("client_secret", DataValue.clientSecret)
      , ("code", DataValue.authCode)
      , ("redirect_uri", DataValue.redirectUri) ]
  , headers := [] }

/-- The GET of MeliClient.get: caller supplied path under the base URL with a
Bearer authorization header built from the access token. -/
def get_template : RequestTemplate :=
  { method := "GET"
  , url := DataValue.reqPath
  , body := []
  , headers := [ ("Authorization", DataValue.bearer TokenField.access_token) ] }

/-- All HTTP request shapes MeliClient can emit: get_token and get.
get_login_url builds a browser redirect URL and performs no HTTP request. -/
def requestTemplates : List RequestTemplate :=
  [get_token_template, get_template]

/-- Whether a data value reads the given field of the stored token. -/
def DataValue.readsTokenField : DataValue → TokenField → Bool
  | DataValue.tokenField g, f => g == f
  | DataValue.bearer g, f => g == f
  | _, _ => false

/-- Whether a request template reads the given field of the stored token. -/
def RequestTemplate.usesTokenField (t : RequestTemplate) (f : TokenField) : Bool :=
  t.url.readsTokenField f
    || t.body.any (fun p => p.2.readsTokenField f)
    || t.headers.any (fun p => p.2.readsTokenField f)

/-- Value of a token field as a string. -/
def tokenFieldValue (tok : MeliToken) : TokenField → String
  | TokenField.access_token => tok.access_token
  | TokenField.refresh_token => tok.refresh_token
  | TokenField.user_id => toString tok.user_id
  | TokenField.expires_at => toString tok.expires_at

/-- Resolve a DataValue for a concrete call. -/
def instantiateValue (s : Settings) (code path : String) (tok : Option MeliToken) :
    DataValue → String
  | DataValue.const c => c
  | DataValue.authCode => code
  | DataValue.clientId => s.client_id
  | DataValue.clientSecret => s.client_secret
  | DataValue.redirectUri => s.redirect_uri
  | DataValue.reqPath => MELI_BASE_URL ++ path
  | DataValue.tokenField f =>
      match tok with
      | some t => tokenFieldValue t f
      | none => ""
  | DataValue.bearer f =>
      match tok with
      | some t => "Bearer " ++ tokenFieldValue t f
      | none => ""

/-- A concrete outgoing HTTP request. -/
structure HttpRequest where
  method : String
  url : String
  body : List (String × String)
  headers : List (String × String)
  deriving Repr, DecidableEq

/-- Instantiate a request template for a concrete call. -/
def instantiateTemplate (t : RequestTemplate) (s : Settings) (code path : String)
    (tok : Option MeliToken) : HttpRequest :=
  { method := t.method
  , url := instantiateValue s code path tok t.url
  , body := t.body.map (fun p => (p.1, instantiateValue s code path tok p.2))
  , headers := t.headers.map (fun p => (p.1, instantiateValue s code path tok p.2)) }

/-- The expires_in value MeliClient.get_token reads from the token endpoint
response: token_data.get with default 3600. -/
def respExpiresIn (resp : JValue) : Int :=
  match resp with
  | JValue.jobj o =>
      match jlookup o "expires_in" with
      | none => 3600
      | some (JValue.jnum n) => n
      | some _ => 0
  | _ => 0

/-- MeliClient.get_token: posts the authorization code to the token endpoint
and validates the response as a MeliToken, with
expires_at computed as the current UTC time plus expires_in seconds.
Returns the request performed together with the parsed token (none models a
raised ValidationError or type error on a malformed response body). -/
def MeliClient.get_token (s : Settings) (now : Int) (code : String) (resp : JValue) :
    HttpRequest × Option MeliToken :=
  let req := instantiateTemplate get_token_template s code "" none
  let token :=
    match resp with
    | JValue.jobj o =>
        match jlookup o "expires_in" with
        | some (JValue.jnum _) | none =>
            (do
              let uid ← reqInt o "user_id"
              let access ← reqStr o "access_token"
              let refresh ← reqStr o "refresh_token"
              pure { user_id := uid
                   , access_token := access
                   , refresh_token := refresh
                   , expires_at := now + respExpiresIn resp : MeliToken })
        | some _ => none
    | _ => none
  (req, token)

/-- MeliClient.get: one GET request against the base URL with a Bearer header;
the response body is produced by the ambient HTTP world, modelled as a
function from URLs to JSON bodies. -/
def MeliClient.get (responses : String → JValue) (path : String) (tok : MeliToken) :
    JValue × HttpRequest :=
  let req := instantiateTemplate get_template { client_id := "", client_secret := "", redirect_uri := "" } "" path (some tok)
  (responses (MELI_BASE_URL ++ path), req)

end Meli

-- ========== orders/meli.py : pydantic API models and validation ==========

namespace Orders

/-- MeliBuyer pydantic model. -/
structure MeliBuyer where
  id : Int
  nickname : Option String
  email : Option String
  phone : Option JObject
  first_name : Option String
  last_name : Option String
  deriving Repr

/-- MeliOrderItem pydantic model. -/
structure MeliOrderItem where
  item : JObject
  quantity : Int
  unit_price : Int
  currency_id : String
  deriving Repr

/-- MeliOrderItem.item_id property: item.get with empty default. -/
def MeliOrderItem.item_id (it : MeliOrderItem) : String :=
  jGetStr it.item "id" ""

/-- MeliOrderItem.item_title property: item.get with empty default. -/
def MeliOrderItem.item_title (it : MeliOrderItem) : String :=
  jGetStr it.item "title" ""

/-- MeliPayment pydantic model. -/
structure MeliPayment where
  id : Int
  transaction_amount : Int
  currency_id : String
  status : String
  payment_type : Option String
  deriving Repr

/-- MeliOrder pydantic model. -/
structure MeliOrder where
  id : Int
  status : String
  date_created : String
  date_closed : Option String
  last_updated : String
  buyer : MeliBuyer
  order_items : List MeliOrderItem
  total_amount : Int
  paid_amount : Option Int
  currency_id : String
  payments : List MeliPayment
  shipping : Option JObject
  deriving Repr

/-- pydantic validation of MeliBuyer from a JSON value. -/
def MeliBuyer.validate (v : JValue) : Option MeliBuyer :=
  match v with
  | JValue.jobj o => do
      let id ← reqInt o "id"
      let nickname ← optStr o "nickname"
      let email ← optStr o "email"
      let phone ← optObj o "phone"
      let first_name ← optStr o "first_name"
      let last_name ← optStr o "last_name"
      pure { id, nickname, email, phone, first_name, last_name }
  | _ => none

/-- pydantic validation of MeliOrderItem from a JSON value. -/
def MeliOrderItem.validate (v : JValue) : Option MeliOrderItem :=
  match v with
  | JValue.jobj o => do
      let item ← reqObj o "item"
      let quantity ← reqInt o "quantity"
      let unit_price ← reqInt o "unit_price"
      let currency_id ← strD o "currency_id" "BRL"
      pure { item, quantity, unit_price, currency_id }
  | _ => none

/-- pydantic validation of MeliPayment from a JSON value. -/
def MeliPayment.validate (v : JValue) : Option MeliPayment :=
  match v with
  | JValue.jobj o => do
      let id ← reqInt o "id"
      let transaction_amount ← reqInt o "transaction_amount"
      let currency_id ← reqStr o "currency_id"
      let status ← reqStr o "status"
      let payment_type ← optStr o "payment_type"
      pure { id, transaction_amount, currency_id, status, payment_type }
  | _ => none

/-- pydantic validation of MeliOrder from a JSON value; none models the
ValidationError raised by MeliOrder(**order_data). -/
def MeliOrder.validate (v : JValue) : Option MeliOrder :=
  match v with
  | JValue.jobj o => do
      let id ← reqInt o "id"
      let status ← reqStr o "status"
      let date_created ← reqStr o "date_created"
      let date_closed ← optStr o "date_closed"
      let last_updated ← reqStr o "last_updated"
      let buyerJson ← jlookup o "buyer"
      let buyer ← MeliBuyer.validate buyerJson
      let itemsJson ← arrReq o "order_items"
      let order_items ← itemsJson.mapM MeliOrderItem.validate
      let total_amount ← reqInt o "total_amount"
      let paid_amount ← optInt o "paid_amount"
      let currency_id ← strD o "currency_id" "BRL"
      let paymentsJson ← arrD o "payments"
      let payments ← paymentsJson.mapM MeliPayment.validate
      let shipping ← optObj o "shipping"
      pure { id, status, date_created, date_closed, last_updated, buyer,
             order_items, total_amount, paid_amount, currency_id, payments,
             shipping }
  | _ => none

-- ========== orders domain aggregates (orders/repositories.py) ==========

/-- OrderItemData pydantic domain model. -/
structure OrderItemData where
  item_id : String
  title : String
  quantity : Int
  unit_price : Int
  currency_id : String
  deriving Repr, DecidableEq

/-- PaymentData pydantic domain model. -/
structure PaymentData where
  payment_id : Int
  transaction_amount : Int
  currency_id : String
  status : String
  payment_type : Option String
  deriving Repr, DecidableEq

/-- OrderData aggregate root. -/
structure OrderData where
  id : Int
  meli_user_id : Int
  status : String
  date_created : String
  date_closed : Option String
  last_updated : String
  buyer_id : Int
  buyer_nickname : Option String
  buyer_email : Option String
  buyer_phone : Option String
  buyer_first_name : Option String
  buyer_last_name : Option String
  total_amount : Int
  paid_amount : Option Int
  currency_id : String
  shipping_id : Option Int
  order_items : List OrderItemData
  payments : List PaymentData
  deriving Repr, DecidableEq

-- ========== orders database (orders/models.py, orders/repositories.py) ==========

/-- Scalar columns of the Order row (orders/models.py). -/
structure OrderRow where
  id : Int
  meli_user_id : Int
  status : String
  date_created : String
  date_closed : Option String
  last_updated : String
  buyer_id : Int
  buyer_nickname : Option String
  buyer_email : Option String
  buyer_phone : Option String
  buyer_first_name : Option String
  buyer_last_name : Option String
  total_amount : Int
  paid_amount : Option Int
  currency_id : String
  shipping_id : Option Int
  deriving Repr, DecidableEq

/-- Order, OrderItem and Payment tables; OrderItem and Payment rows carry the
id of their order (the foreign key) and sit in insertion order.  The MeliUser
table is passed separately as the list of existing user ids. -/
structure OrdersDB where
  rows : List OrderRow
  items : List (Int × OrderItemData)
  payments : List (Int × PaymentData)
  deriving Repr, DecidableEq

/-- The Order row written by DBOrderRepository.save defaults. -/
def rowOfOrderData (od : OrderData) : OrderRow :=
  { id := od.id
  , meli_user_id := od.meli_user_id
  , status := od.status
  , date_created := od.date_created
  , date_closed := od.date_closed
  , last_updated := od.last_updated
  , buyer_id := od.buyer_id
  , buyer_nickname := od.buyer_nickname
  , buyer_email := od.buyer_email
  , buyer_phone := od.buyer_phone
  , buyer_first_name := od.buyer_first_name
  , buyer_last_name := od.buyer_last_name
  , total_amount := od.total_amount
  , paid_amount := od.paid_amount
  , currency_id := od.currency_id
  , shipping_id := od.shipping_id }

/-- DBOrderRepository._to_order_data: rebuild the OrderData aggregate from a
stored row and its related items and payments. -/
def toOrderData (db : OrdersDB) (row : OrderRow) : OrderData :=
  { id := row.id
  , meli_user_id := row.meli_user_id
  , status := row.status
  , date_created := row.date_created
  , date_closed := row.date_closed
  , last_updated := row.last_updated
  , buyer_id := row.buyer_id
  , buyer_nickname := row.buyer_nickname
  , buyer_email := row.buyer_email
  , buyer_phone := row.buyer_phone
  , buyer_first_name := row.buyer_first_name
  , buyer_last_name := row.buyer_last_name
  , total_amount := row.total_amount
  , paid_amount := row.paid_amount
  , currency_id := row.currency_id
  , shipping_id := row.shipping_id
  , order_items := (db.items.filter (fun p => p.1 == row.id)).map (fun p => p.2)
  , payments := (db.payments.filter (fun p => p.1 == row.id)).map (fun p => p.2) }

/-- DBOrderRepository.save: upsert one order.  users is the MeliUser table;
none models the MeliUser.DoesNotExist raised by MeliUser.objects.get.
update_or_create updates the row in place when the id exists and appends it
otherwise; on update the previously stored items and payments of the order
are deleted; then items and payments are recreated from the input. -/
def DBOrderRepository.save (users : List Int) (db : OrdersDB) (od : OrderData) :
    Option (OrdersDB × OrderData) :=
  if users.contains od.meli_user_id then
    let created := !(db.rows.any (fun r => r.id == od.id))
    let newRow := rowOfOrderData od
    let rows1 :=
      if created then db.rows ++ [newRow]
      else db.rows.map (fun r => if r.id == od.id then newRow else r)
    let items1 :=
      if created then db.items
      else db.items.filter (fun p => !(p.1 == od.id))
    let payments1 :=
      if created then db.payments
      else db.payments.filter (fun p => !(p.1 == od.id))
    let db1 : OrdersDB :=
      { rows := rows1
      , items := items1 ++ od.order_items.map (fun it => (od.id, it))
      , payments := payments1 ++ od.payments.map (fun p => (od.id, p)) }
    some (db1, toOrderData db1 newRow)
  else
    none

/-- DBOrderRepository.get_by_user: all orders of one user.  The Meta ordering
by descending date_created is not modelled; rows come in table order. -/
def DBOrderRepository.get_by_user (db : OrdersDB) (meli_user_id : Int) :
    List OrderData :=
  (db.rows.filter (fun r => r.meli_user_id == meli_user_id)).map (toOrderData db)

end Orders

-- ========== orders gateway and sync service (orders/meli.py, orders/services.py) ==========

/-- Events that the notification receivers listen for
(questions/events.py question_received, orders/events.py order_synced). -/
inductive SyncEvent where
  | question_received (meli_user_id question_id : Int) (question_text : String) : SyncEvent
  | order_synced (meli_user_id order_id : Int) (status : String) : SyncEvent
  deriving Repr, DecidableEq

namespace Orders

open Meli

/-- URL requested by MeliOrderAPIGateway.get_orders. -/
def ordersSearchUrl (user_id : Int) : String :=
  "/orders/search?seller=" ++ toString user_id ++ "&sort=date_desc"

/-- The results list read from the search response:
data.get with default empty list. -/
def responseResults (data : JValue) : List JValue :=
  match data with
  | JValue.jobj o =>
      match jlookup o "results" with
      | some (JValue.jarr xs) => xs
      | _ => []
  | _ => []

/-- The parse loop of MeliOrderAPIGateway.get_orders: append each result that
validates, continue past each ValidationError. -/
def parseOrderResults : List JValue → List MeliOrder
  | [] => []
  | v :: vs =>
      match MeliOrder.validate v with
      | some o => o :: parseOrderResults vs
      | none => parseOrderResults vs

/-- An HTTP world: response bodies keyed by request path. -/
abbrev HttpWorld := String → JValue

/-- MeliOrderAPIGateway.get_orders: one GET against the orders search
endpoint, then the parse loop.  The second component is the list of request
paths performed by the call. -/
def MeliOrderAPIGateway.get_orders (world : HttpWorld) (token : MeliToken) :
    List MeliOrder × List String :=
  let url := ordersSearchUrl token.user_id
  let data := world url
  (parseOrderResults (responseResults data), [url])

/-- OrderSyncService._parse_iso_datetime: normalize the Z suffix; fromisoformat
is the identity on the normalized text in this model. -/
def parse_iso_datetime (s : String) : String :=
  s.replace "Z" "+00:00"

/-- The buyer_phone parsing of OrderSyncService._save_order. -/
def parseBuyerPhone (phone : Option JObject) : Option String :=
  match phone with
  | none => none
  | some ph =>
      let area_code := jGetStr ph "area_code" ""
      let number := jGetStr ph "number" ""
      if area_code != "" || number != "" then
        some ((area_code ++ " " ++ number).trim)
      else
        none

/-- OrderSyncService._save_order, parsing part: build the OrderData aggregate
from a MeliOrder for the given user. -/
def orderDataOfMeliOrder (meli_user_id : Int) (o : MeliOrder) : OrderData :=
  { id := o.id
  , meli_user_id := meli_user_id
  , status := o.status
  , date_created := parse_iso_datetime o.date_created
  , date_closed := o.date_closed.map parse_iso_datetime
  , last_updated := parse_iso_datetime o.last_updated
  , buyer_id := o.buyer.id
  , buyer_nickname := o.buyer.nickname
  , buyer_email := o.buyer.email
  , buyer_phone := parseBuyerPhone o.buyer.phone
  , buyer_first_name := o.buyer.first_name
  , buyer_last_name := o.buyer.last_name
  , total_amount := o.total_amount
  , paid_amount := o.paid_amount
  , currency_id := o.currency_id
  , shipping_id :=
      match o.shipping with
      | some sh => jGetOptInt sh "id"
      | none => none
  , order_items := o.order_items.map (fun it =>
      { item_id := it.item_id
      , title := it.item_title
      , quantity := it.quantity
      , unit_price := it.unit_price
      , currency_id := it.currency_id })
  , payments := o.payments.map (fun p =>
      { payment_id := p.id
      , transaction_amount := p.transaction_amount
      , currency_id := p.currency_id
      , status := p.status
      , payment_type := p.payment_type }) }

/-- The save loop of OrderSyncService.sync_orders: each parsed order goes
through _save_order into the repository; a raised DoesNotExist aborts. -/
def saveAllOrders (users : List Int) (meli_user_id : Int) :
    OrdersDB → List MeliOrder → Option OrdersDB
  | db, [] => some db
  | db, o :: os =>
      match DBOrderRepository.save users db (orderDataOfMeliOrder meli_user_id o) with
      | some (db1, _) => saveAllOrders users meli_user_id db1 os
      | none => none

/-- Outcome of one sync_orders call. -/
structure OrderSyncResult where
  result : Option (Nat × OrdersDB)
  httpGets : List String
  dispatched : List SyncEvent
  deriving Repr

/-- OrderSyncService.sync_orders: fetch once through the gateway, save every
parsed order, return the count of saved orders.  The method dispatches no
events. -/
def OrderSyncService.sync_orders (world : HttpWorld) (users : List Int)
    (db : OrdersDB) (meli_user_id : Int) (token : MeliToken) : OrderSyncResult :=
  let fetched := MeliOrderAPIGateway.get_orders world token
  { result := (saveAllOrders users meli_user_id db fetched.1).map
      (fun db1 => (fetched.1.length, db1))
  , httpGets := fetched.2
  , dispatched := [] }

end Orders

-- ========== questions module (questions/meli.py, questions/services.py) ==========

namespace Questions

open Meli

/-- MeliAnswer pydantic model. -/
structure MeliAnswer where
  text : String
  date_created : String
  deriving Repr, DecidableEq

/-- MeliQuestion pydantic model; the field aliased from is kept as a JSON
object. -/
structure MeliQuestion where
  id : Int
  item_id : String
  text : String
  status : String
  date_created : String
  fromUser : JObject
  answer : Option MeliAnswer
  deriving Repr

/-- pydantic validation of MeliAnswer from a JSON value. -/
def MeliAnswer.validate (v : JValue) : Option MeliAnswer :=
  match v with
  | JValue.jobj o => do
      let text ← reqStr o "text"
      let date_created ← reqStr o "date_created"
      pure { text, date_created }
  | _ => none

/-- pydantic validation of MeliQuestion from a JSON value. -/
def MeliQuestion.validate (v : JValue) : Option MeliQuestion :=
  match v with
  | JValue.jobj o => do
      let id ← reqInt o "id"
      let item_id ← reqStr o "item_id"
      let text ← reqStr o "text"
      let status ← reqStr o "status"
      let date_created ← reqStr o "date_created"
      let fromUser ← reqObj o "from"
      let answer ←
        match jlookup o "answer" with
        | none => some none
        | some JValue.jnull => some none
        | some av => (MeliAnswer.validate av).map some
      pure { id, item_id, text, status, date_created, fromUser, answer }
  | _ => none

/-- URL requested by MeliQuestionAPIGateway.get_questions. -/
def questionsSearchUrl (user_id : Int) : String :=
  "/questions/search?seller_id=" ++ toString user_id ++ "&sort_fields=date_created"

/-- The questions list read from the search response:
data.get with default empty list. -/
def responseQuestions (data : JValue) : List JValue :=
  match data with
  | JValue.jobj o =>
      match jlookup o "questions" with
      | some (JValue.jarr xs) => xs
      | _ => []
  | _ => []

/-- MeliQuestionAPIGateway.get_questions: one GET against the questions search
endpoint.  Unlike the orders gateway there is no try/except around
MeliQuestion(**question_data), so a single invalid entry raises and the whole
fetch fails (none); the GET has happened either way.  The second component is
the list of request paths performed by the call. -/
def MeliQuestionAPIGateway.get_questions (world : Orders.HttpWorld)
    (token : MeliToken) : Option (List MeliQuestion) × List String :=
  let url := questionsSearchUrl token.user_id
  let data := world url
  ((responseQuestions data).mapM MeliQuestion.validate, [url])

/-- Columns of the Question row (questions/models.py). -/
structure QuestionRow where
  id : Int
  meli_user_id : Int
  item_id : String
  text : String
  status : String
  date_created : String
  from_user_id : Int
  answer_text : Option String
  answer_date_created : Option String
  deriving Repr, DecidableEq

/-- The Question table. -/
abbrev QuestionsDB := List QuestionRow

/-- DBQuestionRepository.save_or_update: update_or_create by question id. -/
def DBQuestionRepository.save_or_update (db : QuestionsDB) (row : QuestionRow) :
    QuestionsDB :=
  if db.any (fun r => r.id == row.id) then
    db.map (fun r => if r.id == row.id then row else r)
  else
    db ++ [row]

/-- QuestionSyncService._save_question: parse one MeliQuestion into a Question
row.  from_user_id comes from the subscript from_ id, whose absence raises a
KeyError (none), and a non numeric value fails the integer column (none). -/
def questionRowOfMeliQuestion (meli_user_id : Int) (q : MeliQuestion) :
    Option QuestionRow :=
  match jlookup q.fromUser "id" with
  | some (JValue.jnum fid) =>
      some
        { id := q.id
        , meli_user_id := meli_user_id
        , item_id := q.item_id
        , text := q.text
        , status := q.status
        , date_created := Orders.parse_iso_datetime q.date_created
        , from_user_id := fid
        , answer_text := q.answer.map (fun a => a.text)
        , answer_date_created :=
            q.answer.map (fun a => Orders.parse_iso_datetime a.date_created) }
  | _ => none

/-- The save loop of QuestionSyncService.sync_questions. -/
def saveAllQuestions (meli_user_id : Int) :
    QuestionsDB → List MeliQuestion → Option QuestionsDB
  | db, [] => some db
  | db, q :: qs =>
      match questionRowOfMeliQuestion meli_user_id q with
      | some row =>
          saveAllQuestions meli_user_id (DBQuestionRepository.save_or_update db row) qs
      | none => none

/-- Outcome of one sync_questions call. -/
structure QuestionSyncResult where
  result : Option (Nat × QuestionsDB)
  httpGets : List String
  dispatched : List SyncEvent
  deriving Repr

/-- QuestionSyncService.sync_questions: fetch once through the gateway, save
every fetched question, return the count.  The method dispatches no events. -/
def QuestionSyncService.sync_questions (world : Orders.HttpWorld)
    (db : QuestionsDB) (meli_user_id : Int) (token : MeliToken) :
    QuestionSyncResult :=
  let fetched := MeliQuestionAPIGateway.get_questions world token
  { result :=
      match fetched.1 with
      | some qs => (saveAllQuestions meli_user_id db qs).map
          (fun db1 => (qs.length, db1))
      | none => none
  , httpGets := fetched.2
  , dispatched := [] }

end Questions

-- ========== my_auth module (my_auth/models.py, my_auth/services.py) ==========

namespace MyAuth

open Meli

/-- Columns of the Token row (my_auth/models.py); meli_user is a one to one
primary key, so the row is keyed by meli_user_id. -/
structure TokenRow where
  meli_user_id : Int
  access_token : String
  refresh_token : String
  expires_at : Int
  deriving Repr, DecidableEq

/-- The Token table. -/
abbrev TokenDB := List TokenRow

/-- The row get_or_create builds from its defaults. -/
def tokenRowOf (t : MeliToken) : TokenRow :=
  { meli_user_id := t.user_id
  , access_token := t.access_token
  , refresh_token := t.refresh_token
  , expires_at := t.expires_at }

/-- DBUserRepository.save_token: get_or_create on meli_user_id; when the row
already existed, all three token fields are assigned and saved. -/
def DBUserRepository.save_token (db : TokenDB) (t : MeliToken) : TokenDB :=
  if db.any (fun r => r.meli_user_id == t.user_id) then
    db.map (fun r => if r.meli_user_id == t.user_id then tokenRowOf t else r)
  else
    db ++ [tokenRowOf t]

/-- Lookup in the Token table by user id. -/
def findToken (db : TokenDB) (user_id : Int) : Option TokenRow :=
  db.find? (fun r => r.meli_user_id == user_id)

/-- Token states reachable through the application: the table starts empty and
DBUserRepository.save_token is the only code in the repository that writes
Token rows. -/
inductive TokenReachable : TokenDB → Prop where
  | init : TokenReachable []
  | step (db : TokenDB) (t : MeliToken) (h : TokenReachable db) :
      TokenReachable (DBUserRepository.save_token db t)

/-- MeliUserInfo pydantic model (my_auth/meli.py). -/
structure MeliUserInfo where
  id : Int
  email : String
  nickname : String
  first_name : Option String
  last_name : Option String
  deriving Repr, DecidableEq

/-- The MercadoLibre side consumed by MeliAuthService, as an oracle: the token
returned for a callback code and the user info returned for a token. -/
structure MeliEnv where
  token_for : String → MeliToken
  user_info_for : MeliToken → MeliUserInfo

/-- The user_registered signal payload (my_auth/signals.py). -/
inductive AuthEvent where
  | user_registered (meli_user_id : Int) (token : MeliToken) : AuthEvent
  deriving Repr, DecidableEq

/-- Outcome of MeliAuthService.handle_callback. -/
structure CallbackResult where
  users : List Int
  tokens : TokenDB
  meli_user_id : Int
  events : List AuthEvent
  deriving Repr

/-- MeliAuthService.handle_callback: exchange the code for a token; look the
MeliUser up by the token user id; on DoesNotExist register a new user from
get_user_info and dispatch user_registered; finally save the token.  The
events field records the dispatched signals in dispatch order. -/
def MeliAuthService.handle_callback (env : MeliEnv) (users : List Int)
    (tokens : TokenDB) (code : String) : CallbackResult :=
  let token := env.token_for code
  if users.contains token.user_id then
    { users := users
    , tokens := DBUserRepository.save_token tokens token
    , meli_user_id := token.user_id
    , events := [] }
  else
    let info := env.user_info_for token
    { users := users ++ [info.id]
    , tokens := DBUserRepository.save_token tokens token
    , meli_user_id := info.id
    , events := [AuthEvent.user_registered info.id token] }

end MyAuth

-- ========== signal receivers on user_registered (orders/signals.py, questions/signals.py) ==========

namespace Signals

open Meli MyAuth

/-- orders/signals.py on_user_registered: delegate to
OrderSyncService.sync_orders for the registered user. -/
def on_user_registered_orders (world : Orders.HttpWorld) (users : List Int)
    (odb : Orders.OrdersDB) : AuthEvent → Orders.OrderSyncResult
  | AuthEvent.user_registered uid token =>
      Orders.OrderSyncService.sync_orders world users odb uid token

/-- questions/signals.py on_user_registered: delegate to
QuestionSyncService.sync_questions for the registered user. -/
def on_user_registered_questions (world : Orders.HttpWorld)
    (qdb : Questions.QuestionsDB) : AuthEvent → Questions.QuestionSyncResult
  | AuthEvent.user_registered uid token =>
      Questions.QuestionSyncService.sync_questions world qdb uid token

/-- State of the tables the registration flow can touch. -/
structure AppState where
  users : List Int
  tokens : TokenDB
  orders : Orders.OrdersDB
  questions : Questions.QuestionsDB
  deriving Repr

/-- Run both user_registered receivers on one dispatched event.  A sync whose
save loop raises leaves its table at the pre dispatch state in this model. -/
def processAuthEvent (world : Orders.HttpWorld) (st : AppState) (ev : AuthEvent) :
    AppState :=
  let ores := on_user_registered_orders world st.users st.orders ev
  let orders1 :=
    match ores.result with
    | some r => r.2
    | none => st.orders
  let qres := on_user_registered_questions world st.questions ev
  let questions1 :=
    match qres.result with
    | some r => r.2
    | none => st.questions
  { st with orders := orders1, questions := questions1 }

/-- The registration flow end to end: handle_callback followed by the Django
signal delivery of every dispatched event to its receivers. -/
def registration_flow (env : MeliEnv) (world : Orders.HttpWorld) (st : AppState)
    (code : String) : AppState × List AuthEvent :=
  let r := MeliAuthService.handle_callback env st.users st.tokens code
  let st1 : AppState := { st with users := r.users, tokens := r.tokens }
  (r.events.foldl (processAuthEvent world) st1, r.events)

end Signals

-- ========== notifications module (notifications/repositories.py, services.py, signals.py) ==========

namespace Notifications

/-- Runtime class of a notification DTO: NotificationData itself or one of
its subclasses QuestionNotificationData and OrderNotificationData, with the
fields the subclass adds. -/
inductive NotifVariant where
  | base : NotifVariant
  | question (question_id : Int) : NotifVariant
  | order (order_id : Int) (status_change : String) : NotifVariant
  deriving Repr, DecidableEq

/-- NotificationData pydantic domain model, with the runtime variant. -/
structure NotificationData where
  id : Option Int
  type : String
  meli_user_id : Int
  title : String
  message : String
  created_at : String
  read_at : Option String
  variant : NotifVariant
  deriving Repr, DecidableEq

/-- NotificationData.is_read property. -/
def NotificationData.is_read (n : NotificationData) : Bool :=
  n.read_at.isSome

/-- Columns of the Notification row (notifications/models.py). -/
structure NotifRow where
  id : Int
  type : String
  meli_user_id : Int
  title : String
  message : String
  created_at : String
  read_at : Option String
  question_id : Option Int
  order_id : Option Int
  status_change : Option String
  deriving Repr, DecidableEq

/-- The Notification table with its autoincrement counter. -/
structure NotifDB where
  rows : List NotifRow
  next_id : Int
  deriving Repr, DecidableEq

/-- The three serializers of the registry in notifications/repositories.py. -/
inductive SerializerKind where
  | questionSerializer : SerializerKind
  | orderSerializer : SerializerKind
  | baseSerializer : SerializerKind
  deriving Repr, DecidableEq

/-- get_serializer: registry lookup with the base serializer as default. -/
def get_serializer (t : String) : SerializerKind :=
  if t = "question" then SerializerKind.questionSerializer
  else if t = "order" then SerializerKind.orderSerializer
  else SerializerKind.baseSerializer

/-- Fields a serializer writes through the Notification constructor; id,
created_at and read_at take their database defaults on save. -/
structure NotifModelFields where
  type : String
  meli_user_id : Int
  title : String
  message : String
  question_id : Option Int
  order_id : Option Int
  status_change : Option String
  deriving Repr, DecidableEq

/-- Serializer to_model; none models a failed isinstance assert. -/
def SerializerKind.to_model : SerializerKind → NotificationData → Option NotifModelFields
  | SerializerKind.questionSerializer, dto =>
      match dto.variant with
      | NotifVariant.question qid =>
          some { type := dto.type, meli_user_id := dto.meli_user_id
               , title := dto.title, message := dto.message
               , question_id := some qid, order_id := none, status_change := none }
      | _ => none
  | SerializerKind.orderSerializer, dto =>
      match dto.variant with
      | NotifVariant.order oid sc =>
          some { type := dto.type, meli_user_id := dto.meli_user_id
               , title := dto.title, message := dto.message
               , question_id := none, order_id := some oid
               , status_change := some sc }
      | _ => none
  | SerializerKind.baseSerializer, dto =>
      some { type := dto.type, meli_user_id := dto.meli_user_id
           , title := dto.title, message := dto.message
           , question_id := none, order_id := none, status_change := none }

/-- Serializer to_dto; none models a failed assert on a null type specific
column. -/
def SerializerKind.to_dto : SerializerKind → NotifRow → Option NotificationData
  | SerializerKind.questionSerializer, row =>
      match row.question_id with
      | some qid =>
          some { id := some row.id, type := row.type
               , meli_user_id := row.meli_user_id, title := row.title
               , message := row.message, created_at := row.created_at
               , read_at := row.read_at, variant := NotifVariant.question qid }
      | none => none
  | SerializerKind.orderSerializer, row =>
      match row.order_id with
      | some oid =>
          some { id := some row.id, type := row.type
               , meli_user_id := row.meli_user_id, title := row.title
               , message := row.message, created_at := row.created_at
               , read_at := row.read_at
               , variant := NotifVariant.order oid (row.status_change.getD "") }
      | none => none
  | SerializerKind.baseSerializer, row =>
      some { id := some row.id, type := row.type
           , meli_user_id := row.meli_user_id, title := row.title
           , message := row.message, created_at := row.created_at
           , read_at := row.read_at, variant := NotifVariant.base }

/-- DBNotificationRepository.save: serialize through the registry, insert the
row with a fresh id, the creation clock and an unset read_at, and return the
persisted version through to_dto. -/
def DBNotificationRepository.save (db : NotifDB) (now : String)
    (dto : NotificationData) : Option (NotifDB × NotificationData) := do
  let flds ← (get_serializer dto.type).to_model dto
  let row : NotifRow :=
    { id := db.next_id
    , type := flds.type
    , meli_user_id := flds.meli_user_id
    , title := flds.title
    , message := flds.message
    , created_at := now
    , read_at := none
    , question_id := flds.question_id
    , order_id := flds.order_id
    , status_change := flds.status_change }
  let out ← (get_serializer row.type).to_dto row
  pure ({ rows := db.rows ++ [row], next_id := db.next_id + 1 }, out)

/-- DBNotificationRepository.mark_as_read: fetch the row by id (none models
DoesNotExist), set read_at to the current clock only when it is unset, save,
and return the row through its serializer. -/
def DBNotificationRepository.mark_as_read (db : NotifDB) (now : String)
    (notification_id : Int) : Option (NotifDB × NotificationData) :=
  match db.rows.find? (fun r => r.id == notification_id) with
  | none => none
  | some row =>
      let row1 := if row.read_at.isNone then { row with read_at := some now } else row
      let rows1 :=
        if row.read_at.isNone then
          db.rows.map (fun r => if r.id == notification_id then row1 else r)
        else
          db.rows
      ((get_serializer row1.type).to_dto row1).map
        (fun dto => ({ db with rows := rows1 }, dto))

/-- NotificationService.create_question_notification. -/
def NotificationService.create_question_notification (db : NotifDB) (now : String)
    (meli_user_id question_id : Int) (question_text : String) :
    Option (NotifDB × NotificationData) :=
  let preview :=
    if question_text.length > 100 then question_text.take 100 ++ "..."
    else question_text
  DBNotificationRepository.save db now
    { id := none
    , type := "question"
    , meli_user_id := meli_user_id
    , title := "Nueva pregunta recibida"
    , message := "Pregunta: " ++ preview
    , created_at := now
    , read_at := none
    , variant := NotifVariant.question question_id }

/-- NotificationService.create_order_notification. -/
def NotificationService.create_order_notification (db : NotifDB) (now : String)
    (meli_user_id order_id : Int) (status : String) :
    Option (NotifDB × NotificationData) :=
  let title :=
    if status = "paid" then "Tu orden ha sido pagada"
    else if status = "confirmed" then "Tu orden ha sido confirmada"
    else if status = "payment_required" then "Tu orden requiere pago"
    else "Actualización de orden #" ++ toString order_id
  let message :=
    "La orden #" ++ toString order_id ++ " cambió a estado: " ++ status
  DBNotificationRepository.save db now
    { id := none
    , type := "order"
    , meli_user_id := meli_user_id
    , title := title
    , message := message
    , created_at := now
    , read_at := none
    , variant := NotifVariant.order order_id status }

/-- notifications/signals.py on_question_received: delegate to the
notification service. -/
def on_question_received (db : NotifDB) (now : String)
    (meli_user_id question_id : Int) (question_text : String) :
    Option (NotifDB × NotificationData) :=
  NotificationService.create_question_notification db now meli_user_id
    question_id question_text

/-- notifications/signals.py on_order_synced: delegate to the notification
service. -/
def on_order_synced (db : NotifDB) (now : String) (meli_user_id order_id : Int)
    (status : String) : Option (NotifDB × NotificationData) :=
  NotificationService.create_order_notification db now meli_user_id order_id
    status

/-- Deliver a list of dispatched question_received and order_synced events to
the notification receivers. -/
def processSyncEvents (now : String) : NotifDB → List SyncEvent → NotifDB
  | db, [] => db
  | db, SyncEvent.question_received uid qid text :: evs =>
      match on_question_received db now uid qid text with
      | some (db1, _) => processSyncEvents now db1 evs
      | none => processSyncEvents now db evs
  | db, SyncEvent.order_synced uid oid status :: evs =>
      match on_order_synced db now uid oid status with
      | some (db1, _) => processSyncEvents now db1 evs
      | none => processSyncEvents now db evs

end Notifications

-- ========== integrity predicates ==========

namespace Orders

/-- An order row with the given id exists. -/
def hasOrderId (db : OrdersDB) (i : Int) : Bool :=
  db.rows.any (fun r => r.id == i)

/-- Referential integrity of the orders tables: every item and payment row
points at an existing order, which the database foreign keys enforce. -/
def OrdersDB.integral (db : OrdersDB) : Prop :=
  (∀ p ∈ db.items, hasOrderId db p.1 = true)
    ∧ (∀ p ∈ db.payments, hasOrderId db p.1 = true)

end Orders

namespace Notifications

/-- The type specific column that the type string announces is populated, as
guaranteed for every row the repository itself writes. -/
def NotifRow.wfVariant (row : NotifRow) : Prop :=
  (row.type = "question" → row.question_id.isSome = true)
    ∧ (row.type = "order" → row.order_id.isSome = true)

end Notifications

-- ========== sample data for concrete runs ==========

namespace Samples

open Meli

def token7 : MeliToken :=
  { user_id := 7, access_token := "at", refresh_token := "rt", expires_at := 0 }

/-- A well formed order search result. -/
def goodOrderJson : JValue :=
  JValue.jobj
    [ ("id", JValue.jnum 2000001234)
    , ("status", JValue.jstr "paid")
    , ("date_created", JValue.jstr "2024-01-15T10:30:00Z")
    , ("last_updated", JValue.jstr "2024-01-15T11:00:00Z")
    , ("buyer", JValue.jobj [("id", JValue.jnum 88888)])
    , ("order_items", JValue.jarr
        [ JValue.jobj
            [ ("item", JValue.jobj
                [("id", JValue.jstr "MLB123"), ("title", JValue.jstr "Producto")])
            , ("quantity", JValue.jnum 2)
            , ("unit_price", JValue.jnum 150) ] ])
    , ("total_amount", JValue.jnum 300) ]

/-- A malformed order search result: status, dates, buyer, order_items and
total_amount are all missing, so MeliOrder validation fails. -/
def badOrderJson : JValue :=
  JValue.jobj [("id", JValue.jnum 99)]

def ordersResponse1 : JValue :=
  JValue.jobj [("results", JValue.jarr [goodOrderJson, badOrderJson])]

/-- An HTTP world answering every GET with the two element search result. -/
def world1 : Orders.HttpWorld := fun _ => ordersResponse1

def odb0 : Orders.OrdersDB := { rows := [], items := [], payments := [] }

def ndb0 : Notifications.NotifDB := { rows := [], next_id := 1 }

def env0 : MyAuth.MeliEnv :=
  { token_for := fun _ => token7
  , user_info_for := fun t =>
      { id := t.user_id, email := "e", nickname := "n"
      , first_name := none, last_name := none } }

/-- State in which meli user 7 already exists, for the repeat login case. -/
def st7 : Signals.AppState :=
  { users := [7], tokens := [], orders := odb0, questions := [] }

def settings0 : Settings :=
  { client_id := "cid", client_secret := "csec", redirect_uri := "uri" }

/-- A token endpoint response that omits expires_in. -/
def respNoExpiry : JValue :=
  JValue.jobj
    [ ("user_id", JValue.jnum 5)
    , ("access_token", JValue.jstr "a")
    , ("refresh_token", JValue.jstr "r") ]

def tokResp : MeliToken :=
  { user_id := 5, access_token := "a", refresh_token := "r", expires_at := 3700 }

def od1 : Orders.OrderData :=
  { id := 10, meli_user_id := 1, status := "paid"
  , date_created := "2024-01-15T10:30:00+00:00", date_closed := none
  , last_updated := "2024-01-15T11:00:00+00:00"
  , buyer_id := 3, buyer_nickname := none, buyer_email := none
  , buyer_phone := none, buyer_first_name := none, buyer_last_name := none
  , total_amount := 300, paid_amount := none, currency_id := "BRL"
  , shipping_id := none
  , order_items := [{ item_id := "i", title := "t", quantity := 1
                    , unit_price := 2, currency_id := "BRL" }]
  , payments := [{ payment_id := 4, transaction_amount := 5
                 , currency_id := "BRL", status := "ok", payment_type := none }] }

def notifRow1 : Notifications.NotifRow :=
  { id := 1, type := "question", meli_user_id := 7, title := "t", message := "m"
  , created_at := "c", read_at := none, question_id := some 11
  , order_id := none, status_change := none }

def ndb1 : Notifications.NotifDB := { rows := [notifRow1], next_id := 2 }

def qdto1 : Notifications.NotificationData :=
  { id := none, type := "question", meli_user_id := 7, title := "t"
  , message := "m", created_at := "c", read_at := none
  , variant := Notifications.NotifVariant.question 11 }

end Samples

-- ========== helper lemmas ==========

/-- Updating exactly the elements a predicate selects moves find? to the
updated element. -/
theorem find?_map_update {α : Type} (p : α → Bool) (f : α → α) :
    ∀ (l : List α) (row : α), l.find? p = some row → p (f row) = true →
      (l.map (fun x => if p x then f x else x)).find? p = some (f row) := by
  intro l
  induction l with
  | nil => intro row h _; simp at h
  | cons x xs ih =>
      intro row h hf
      cases hp : p x with
      | true =>
          rw [List.find?_cons_of_pos _ hp] at h
          injection h with h
          subst h
          simp only [List.map_cons, hp, if_true]
          exact List.find?_cons_of_pos _ hf
      | false =>
          rw [List.find?_cons_of_neg _ (by simp [hp])] at h
          simp only [List.map_cons, hp]
          rw [if_neg (by simp)]
          rw [List.find?_cons_of_neg _ (by simp [hp])]
          exact ih row h hf

/-- find? over an append whose left part contains no match. -/
theorem find?_append_right {α : Type} (p : α → Bool) (l₁ l₂ : List α)
    (h : ∀ x ∈ l₁, p x = false) : (l₁ ++ l₂).find? p = l₂.find? p := by
  induction l₁ with
  | nil => simp
  | cons x xs ih =>
      have hx : p x = false := h x (by simp)
      simp only [List.cons_append]
      rw [List.find?_cons_of_neg _ (by simp [hx])]
      exact ih (fun y hy => h y (by simp [hy]))

namespace MyAuth

/-- After save_token, the stored row for the token user is the saved token. -/
theorem save_token_find (db : TokenDB) (t : Meli.MeliToken) :
    findToken (DBUserRepository.save_token db t) t.user_id = some (tokenRowOf t) := by
  unfold DBUserRepository.save_token findToken
  cases hex : db.any (fun r => r.meli_user_id == t.user_id) with
  | true =>
      rw [if_pos rfl]
      rcases List.any_eq_true.mp hex with ⟨row, hmem, hrow⟩
      have hsome : (List.find? (fun r => r.meli_user_id == t.user_id) db).isSome = true := by
        rw [List.find?_isSome]
        exact ⟨row, hmem, hrow⟩
      rcases Option.isSome_iff_exists.mp hsome with ⟨row0, hfind⟩
      have := find?_map_update (fun r => r.meli_user_id == t.user_id)
        (fun _ => tokenRowOf t) db row0 hfind (by simp [tokenRowOf])
      simpa using this
  | false =>
      rw [if_neg (by simp)]
      rw [find?_append_right]
      · simp [tokenRowOf]
      · intro x hx
        by_contra hc
        have hax : (x.meli_user_id == t.user_id) = true := by
          cases hxx : x.meli_user_id == t.user_id with
          | true => rfl
          | false => exact absurd hxx hc
        have : db.any (fun r => r.meli_user_id == t.user_id) = true :=
          List.any_eq_true.mpr ⟨x, hx, hax⟩
        rw [hex] at this
        exact Bool.false_ne_true this

/-- save_token keeps the token keys free of duplicates. -/
theorem save_token_nodup (db : TokenDB) (t : Meli.MeliToken)
    (h : (db.map (fun r => r.meli_user_id)).Nodup) :
    ((DBUserRepository.save_token db t).map (fun r => r.meli_user_id)).Nodup := by
  unfold DBUserRepository.save_token
  cases hex : db.any (fun r => r.meli_user_id == t.user_id) with
  | true =>
      rw [if_pos rfl]
      have hkeys : (db.map (fun r =>
          if r.meli_user_id == t.user_id then tokenRowOf t else r)).map
            (fun r => r.meli_user_id) = db.map (fun r => r.meli_user_id) := by
        rw [List.map_map]
        apply List.map_congr_left
        intro x _
        cases hx : x.meli_user_id == t.user_id with
        | true =>
            have hxe : x.meli_user_id = t.user_id := by simpa using hx
            simp [hx, tokenRowOf, hxe]
        | false =>
            have hne : ¬ x.meli_user_id = t.user_id := by
              intro hh
              rw [hh] at hx
              simp at hx
            simp [hne]
      rw [hkeys]
      exact h
  | false =>
      rw [if_neg (by simp)]
      rw [List.map_append, List.nodup_append]
      refine ⟨h, by simp, ?_⟩
      intro a ha
      rcases List.mem_map.mp ha with ⟨row, hmem, hkey⟩
      intro hat
      have hak : a = t.user_id := by
        simpa [tokenRowOf] using hat
      have hrow : (row.meli_user_id == t.user_id) = true := by
        rw [hkey, hak]
        simp
      have : db.any (fun r => r.meli_user_id == t.user_id) = true :=
        List.any_eq_true.mpr ⟨row, hmem, hrow⟩
      rw [hex] at this
      exact Bool.false_ne_true this

/-- In every reachable token state the keys are free of duplicates: each
MeliUser has at most one stored token. -/
theorem reachable_token_nodup (db : TokenDB) (h : TokenReachable db) :
    (db.map (fun r => r.meli_user_id)).Nodup := by
  induction h with
  | init => simp
  | step db t _ ih => exact save_token_nodup db t ih

/-- handle_callback always persists the exchanged token through save_token. -/
theorem handle_callback_tokens (env : MeliEnv) (users : List Int)
    (tokens : TokenDB) (code : String) :
    (MeliAuthService.handle_callback env users tokens code).tokens
      = DBUserRepository.save_token tokens (env.token_for code) := by
  unfold MeliAuthService.handle_callback
  dsimp only []
  split <;> rfl

end MyAuth

namespace Orders

/-- hasOrderId unfolded to an existential. -/
theorem hasOrderId_iff (db : OrdersDB) (i : Int) :
    hasOrderId db i = true ↔ ∃ r ∈ db.rows, r.id = i := by
  simp [hasOrderId, List.any_eq_true]

/-- The gateway parse loop keeps exactly the results that validate, in
response order. -/
theorem parseOrderResults_eq_filterMap (xs : List JValue) :
    parseOrderResults xs = xs.filterMap MeliOrder.validate := by
  induction xs with
  | nil => rfl
  | cons v vs ih =>
      unfold parseOrderResults
      cases hv : MeliOrder.validate v with
      | none => simp [hv, ih]
      | some o => simp [hv, ih]

/-- save succeeds whenever the order user exists. -/
theorem save_eq_some (users : List Int) (db : OrdersDB) (od : OrderData)
    (h : users.contains od.meli_user_id = true) :
    ∃ db1 ret, DBOrderRepository.save users db od = some (db1, ret) := by
  unfold DBOrderRepository.save
  rw [if_pos h]
  exact ⟨_, _, rfl⟩

/-- save records the saved order id and keeps every order id already
present. -/
theorem save_hasOrderId (users : List Int) (db : OrdersDB) (od : OrderData)
    (db1 : OrdersDB) (ret : OrderData)
    (hs : DBOrderRepository.save users db od = some (db1, ret)) :
    hasOrderId db1 od.id = true
      ∧ ∀ i, hasOrderId db i = true → hasOrderId db1 i = true := by
  unfold DBOrderRepository.save at hs
  by_cases h : users.contains od.meli_user_id = true
  · rw [if_pos h] at hs
    injection hs with hs
    injection hs with h1 h2
    subst h1
    unfold hasOrderId
    dsimp only
    cases hex : db.rows.any (fun r => r.id == od.id) with
    | false =>
        simp only [hex, Bool.not_false]
        rw [if_true]
        constructor
        · simp [rowOfOrderData]
        · intro i hi
          simp [List.any_append, hi]
    | true =>
        simp only [hex, Bool.not_true]
        rw [if_neg (by simp)]
        constructor
        · rw [List.any_map]
          rcases List.any_eq_true.mp hex with ⟨r, hmem, hr⟩
          refine List.any_eq_true.mpr ⟨r, hmem, ?_⟩
          simp only [Function.comp]
          rw [if_pos hr]
          simp [rowOfOrderData]
        · intro i hi
          rw [List.any_map]
          rcases List.any_eq_true.mp hi with ⟨r, hmem, hri⟩
          refine List.any_eq_true.mpr ⟨r, hmem, ?_⟩
          simp only [Function.comp]
          cases hro : r.id == od.id with
          | true =>
              rw [if_pos rfl]
              have h1 : r.id = od.id := eq_of_beq hro
              have h2 : r.id = i := eq_of_beq hri
              simp [rowOfOrderData, ← h1, h2]
          | false =>
              rw [if_neg (by simp [hro])]
              exact hri
  · rw [if_neg h] at hs
    exact absurd hs (by simp)

/-- The sync save loop succeeds for an existing user. -/
theorem saveAllOrders_some (users : List Int) (uid : Int)
    (h : users.contains uid = true) :
    ∀ (os : List MeliOrder) (db : OrdersDB),
      ∃ db1, saveAllOrders users uid db os = some db1 := by
  intro os
  induction os with
  | nil => intro db; exact ⟨db, rfl⟩
  | cons o os ih =>
      intro db
      have hu : users.contains (orderDataOfMeliOrder uid o).meli_user_id = true := h
      rcases save_eq_some users db (orderDataOfMeliOrder uid o) hu with ⟨db2, ret, hs⟩
      rcases ih db2 with ⟨db1, hrest⟩
      refine ⟨db1, ?_⟩
      unfold saveAllOrders
      rw [hs]
      exact hrest

/-- After the save loop every processed order id is present, and order ids
already present are kept. -/
theorem saveAllOrders_ids (users : List Int) (uid : Int) :
    ∀ (os : List MeliOrder) (db db1 : OrdersDB),
      saveAllOrders users uid db os = some db1 →
      (∀ i, hasOrderId db i = true → hasOrderId db1 i = true)
        ∧ ∀ o ∈ os, hasOrderId db1 o.id = true := by
  intro os
  induction os with
  | nil =>
      intro db db1 hsa
      have : db = db1 := by
        simpa [saveAllOrders] using hsa
      subst this
      exact ⟨fun i hi => hi, by simp⟩
  | cons o os ih =>
      intro db db1 hsa
      unfold saveAllOrders at hsa
      cases hs : DBOrderRepository.save users db (orderDataOfMeliOrder uid o) with
      | none => rw [hs] at hsa; exact absurd hsa (by simp)
      | some p =>
          rw [hs] at hsa
          rcases ih p.1 db1 hsa with ⟨hkeep, hall⟩
          have hstep := save_hasOrderId users db (orderDataOfMeliOrder uid o) p.1 p.2
            (by rw [hs])
          constructor
          · intro i hi
            exact hkeep i (hstep.2 i hi)
          · intro o2 hmem
            rcases List.mem_cons.mp hmem with he | hm
            · subst he
              exact hkeep _ hstep.1
            · exact hall o2 hm

end Orders

namespace Notifications

/-- A row whose type specific column is populated as its type announces
serializes to a DTO carrying the row read state and id. -/
theorem to_dto_of_wf (row : NotifRow) (h : row.wfVariant) :
    ∃ dto, (get_serializer row.type).to_dto row = some dto
      ∧ dto.read_at = row.read_at ∧ dto.id = some row.id := by
  unfold get_serializer
  by_cases hq : row.type = "question"
  · rw [if_pos hq]
    cases hqid : row.question_id with
    | none =>
        have hcon := h.1 hq
        rw [hqid] at hcon
        simp at hcon
    | some qid =>
        refine ⟨{ id := some row.id, type := row.type
                , meli_user_id := row.meli_user_id, title := row.title
                , message := row.message, created_at := row.created_at
                , read_at := row.read_at
                , variant := NotifVariant.question qid }, ?_, rfl, rfl⟩
        simp [SerializerKind.to_dto, hqid]
  · rw [if_neg hq]
    by_cases ho : row.type = "order"
    · rw [if_pos ho]
      cases hoid : row.order_id with
      | none =>
          have hcon := h.2 ho
          rw [hoid] at hcon
          simp at hcon
      | some oid =>
          refine ⟨{ id := some row.id, type := row.type
                  , meli_user_id := row.meli_user_id, title := row.title
                  , message := row.message, created_at := row.created_at
                  , read_at := row.read_at
                  , variant := NotifVariant.order oid (row.status_change.getD "") }, ?_, rfl, rfl⟩
          simp [SerializerKind.to_dto, hoid]
    · rw [if_neg ho]
      refine ⟨{ id := some row.id, type := row.type
              , meli_user_id := row.meli_user_id, title := row.title
              , message := row.message, created_at := row.created_at
              , read_at := row.read_at
              , variant := NotifVariant.base }, ?_, rfl, rfl⟩
      simp [SerializerKind.to_dto]

end Notifications

namespace MyAuth

/-- handle_callback dispatches user_registered exactly when the token user id
names no existing MeliUser. -/
theorem handle_callback_events (env : MeliEnv) (users : List Int)
    (tokens : TokenDB) (code : String) :
    (MeliAuthService.handle_callback env users tokens code).events
      = (if users.contains (env.token_for code).user_id then ([] : List AuthEvent)
         else [AuthEvent.user_registered
                 (env.user_info_for (env.token_for code)).id (env.token_for code)]) := by
  unfold MeliAuthService.handle_callback
  dsimp only []
  split
  · rfl
  · rfl

end MyAuth

-- ========== claim theorems ==========

/-- C1: order and question synchronization are pagination free and bounded by
a single HTTP call: every sync_orders invocation performs exactly one HTTP GET
to the orders search endpoint, and every sync_questions invocation performs
exactly one HTTP GET to the questions search endpoint, regardless of how many
results the API returns. -/
theorem C1_sync_single_http_get (world : Orders.HttpWorld) (users : List Int)
    (odb : Orders.OrdersDB) (qdb : Questions.QuestionsDB) (uid : Int)
    (token : Meli.MeliToken) :
    (Orders.OrderSyncService.sync_orders world users odb uid token).httpGets
        = [Orders.ordersSearchUrl token.user_id]
      ∧ (Questions.QuestionSyncService.sync_questions world qdb uid token).httpGets
        = [Questions.questionsSearchUrl token.user_id] :=
  ⟨rfl, rfl⟩

/-- C2: handle_callback dispatches user_registered exactly when no MeliUser
with the exchanged token user id exists, a repeat login dispatches nothing and
leaves the orders and questions tables untouched, and the receivers of the
event synchronize the registered user orders and questions. -/
theorem C2_registration_fanout (env : MyAuth.MeliEnv) (world : Orders.HttpWorld)
    (st : Signals.AppState) (code : String) :
    ((Signals.registration_flow env world st code).2
        = (if st.users.contains (env.token_for code).user_id then ([] : List MyAuth.AuthEvent)
           else [MyAuth.AuthEvent.user_registered
                   (env.user_info_for (env.token_for code)).id (env.token_for code)]))
      ∧ (∀ uid tk users odb,
          Signals.on_user_registered_orders world users odb
              (MyAuth.AuthEvent.user_registered uid tk)
            = Orders.OrderSyncService.sync_orders world users odb uid tk)
      ∧ (∀ uid tk qdb,
          Signals.on_user_registered_questions world qdb
              (MyAuth.AuthEvent.user_registered uid tk)
            = Questions.QuestionSyncService.sync_questions world qdb uid tk)
      ∧ (st.users.contains (env.token_for code).user_id = true →
          (Signals.registration_flow env world st code).1.orders = st.orders
            ∧ (Signals.registration_flow env world st code).1.questions = st.questions) := by
  refine ⟨?_, fun uid tk users odb => rfl, fun uid tk qdb => rfl, ?_⟩
  · unfold Signals.registration_flow
    exact MyAuth.handle_callback_events env st.users st.tokens code
  · intro hc
    unfold Signals.registration_flow
    dsimp only []
    rw [MyAuth.handle_callback_events env st.users st.tokens code]
    rw [if_pos hc]
    exact ⟨rfl, rfl⟩

/-- C2 witness: with user 7 already registered, the repeat login dispatches
nothing and leaves the orders and questions tables unchanged. -/
theorem C2_registration_fanout_witness :
    Samples.st7.users.contains (Samples.env0.token_for "c").user_id = true
      ∧ ((Signals.registration_flow Samples.env0 Samples.world1 Samples.st7 "c").1.orders
            = Samples.st7.orders
          ∧ (Signals.registration_flow Samples.env0 Samples.world1 Samples.st7 "c").1.questions
            = Samples.st7.questions) :=
  ⟨by decide,
   (C2_registration_fanout Samples.env0 Samples.world1 Samples.st7 "c").2.2.2 (by decide)⟩

/-- C5: a malformed order does not abort a sync: get_orders returns, in API
response order, exactly the results that validate as MeliOrder and skips any
result that fails validation; sync_orders saves every returned order and
returns their count. -/
theorem C5_malformed_order_skipped (world : Orders.HttpWorld) (users : List Int)
    (db : Orders.OrdersDB) (uid : Int) (token : Meli.MeliToken)
    (h : users.contains uid = true) :
    (Orders.MeliOrderAPIGateway.get_orders world token).1
        = (Orders.responseResults (world (Orders.ordersSearchUrl token.user_id))).filterMap
            Orders.MeliOrder.validate
      ∧ ∃ db1,
          (Orders.OrderSyncService.sync_orders world users db uid token).result
              = some ((Orders.MeliOrderAPIGateway.get_orders world token).1.length, db1)
            ∧ ∀ o ∈ (Orders.MeliOrderAPIGateway.get_orders world token).1,
                Orders.hasOrderId db1 o.id = true := by
  constructor
  · exact Orders.parseOrderResults_eq_filterMap _
  · rcases Orders.saveAllOrders_some users uid h
      (Orders.MeliOrderAPIGateway.get_orders world token).1 db with ⟨db1, hsa⟩
    refine ⟨db1, ?_, ?_⟩
    · unfold Orders.OrderSyncService.sync_orders
      dsimp only []
      rw [hsa]
      rfl
    · exact (Orders.saveAllOrders_ids users uid _ db db1 hsa).2

/-- C5 witness: a response holding one valid and one malformed order yields
exactly the valid order and a sync count of one. -/
theorem C5_malformed_order_skipped_witness :
    ([7] : List Int).contains (7 : Int) = true
      ∧ ∃ db1,
          (Orders.OrderSyncService.sync_orders Samples.world1 [7] Samples.odb0 7
              Samples.token7).result
              = some ((Orders.MeliOrderAPIGateway.get_orders Samples.world1
                  Samples.token7).1.length, db1)
            ∧ ∀ o ∈ (Orders.MeliOrderAPIGateway.get_orders Samples.world1
                Samples.token7).1,
                Orders.hasOrderId db1 o.id = true :=
  ⟨by decide,
   (C5_malformed_order_skipped Samples.world1 [7] Samples.odb0 7 Samples.token7
      (by decide)).2⟩

/-- Appending freshly keyed rows to a table holding no row with that key: the
rows under the key are exactly the new ones and the rest is untouched. -/
theorem filter_key_append_map {α : Type} (key : Int) (l : List (Int × α))
    (xs : List α) (hl : l.filter (fun p => p.1 == key) = []) :
    ((l ++ xs.map (fun x => (key, x))).filter (fun p => p.1 == key)).map
        (fun p => p.2) = xs
      ∧ (l ++ xs.map (fun x => (key, x))).filter (fun p => !(p.1 == key))
        = l.filter (fun p => !(p.1 == key)) := by
  constructor
  · rw [List.filter_append, hl, List.nil_append, List.filter_map]
    have hall : (xs.filter ((fun p => p.1 == key) ∘ (fun x => ((key, x) : Int × α)))) = xs := by
      rw [List.filter_eq_self]
      intro a _
      simp
    rw [hall, List.map_map]
    simp
  · rw [List.filter_append]
    have hnone : (xs.map (fun x => ((key, x) : Int × α))).filter
        (fun p => !(p.1 == key)) = [] := by
      rw [List.filter_eq_nil_iff]
      intro a ha
      rcases List.mem_map.mp ha with ⟨x, _, hx⟩
      subst hx
      simp
    rw [hnone, List.append_nil]

/-- C4: DBOrderRepository.save is an upsert: for an OrderData whose
meli_user_id names an existing user it creates the order row when no row with
that id exists and otherwise overwrites it in place, deletes the previously
stored items and payments of the order and recreates them from the input, and
both the returned OrderData and the corresponding entry of get_by_user carry
exactly the saved field values, items and payments of the input. -/
theorem C4_order_save_upsert (users : List Int) (db : Orders.OrdersDB)
    (od : Orders.OrderData) (hu : users.contains od.meli_user_id = true)
    (hint : db.integral) :
    ∃ db1, Orders.DBOrderRepository.save users db od = some (db1, od)
      ∧ (Orders.hasOrderId db od.id = false →
          db1.rows = db.rows ++ [Orders.rowOfOrderData od])
      ∧ (Orders.hasOrderId db od.id = true →
          db1.rows = db.rows.map
            (fun r => if r.id == od.id then Orders.rowOfOrderData od else r))
      ∧ (db1.items.filter (fun p => p.1 == od.id)).map (fun p => p.2)
          = od.order_items
      ∧ (db1.payments.filter (fun p => p.1 == od.id)).map (fun p => p.2)
          = od.payments
      ∧ db1.items.filter (fun p => !(p.1 == od.id))
          = db.items.filter (fun p => !(p.1 == od.id))
      ∧ db1.payments.filter (fun p => !(p.1 == od.id))
          = db.payments.filter (fun p => !(p.1 == od.id))
      ∧ od ∈ Orders.DBOrderRepository.get_by_user db1 od.meli_user_id := by
  unfold Orders.DBOrderRepository.save
  rw [if_pos hu]
  cases hex : db.rows.any (fun r => r.id == od.id) with
  | false =>
      have hitems : db.items.filter (fun p => p.1 == od.id) = [] := by
        rw [List.filter_eq_nil_iff]
        intro p hp hkey
        have hhas := hint.1 p hp
        have hpe : p.1 = od.id := by simpa using hkey
        rw [hpe] at hhas
        unfold Orders.hasOrderId at hhas
        rw [hex] at hhas
        exact Bool.false_ne_true hhas
      have hpays : db.payments.filter (fun p => p.1 == od.id) = [] := by
        rw [List.filter_eq_nil_iff]
        intro p hp hkey
        have hhas := hint.2 p hp
        have hpe : p.1 = od.id := by simpa using hkey
        rw [hpe] at hhas
        unfold Orders.hasOrderId at hhas
        rw [hex] at hhas
        exact Bool.false_ne_true hhas
      simp only [hex, Bool.not_false, if_true]
      rcases filter_key_append_map od.id db.items od.order_items hitems with ⟨hi1, hi2⟩
      rcases filter_key_append_map od.id db.payments od.payments hpays with ⟨hp1, hp2⟩
      have hret : Orders.toOrderData
          { rows := db.rows ++ [Orders.rowOfOrderData od]
          , items := db.items ++ od.order_items.map (fun it => (od.id, it))
          , payments := db.payments ++ od.payments.map (fun p => (od.id, p)) }
          (Orders.rowOfOrderData od) = od := by
        unfold Orders.toOrderData Orders.rowOfOrderData
        dsimp only
        rw [hi1, hp1]
      refine ⟨_, by rw [hret], fun _ => rfl, ?_, hi1, hp1, hi2, hp2, ?_⟩
      · intro hcon
        unfold Orders.hasOrderId at hcon
        rw [hex] at hcon
        exact absurd hcon (by simp)
      · unfold Orders.DBOrderRepository.get_by_user
        refine List.mem_map.mpr ⟨Orders.rowOfOrderData od, ?_, hret⟩
        refine List.mem_filter.mpr ⟨?_, by simp [Orders.rowOfOrderData]⟩
        simp
  | true =>
      have hitems : (db.items.filter (fun p => !(p.1 == od.id))).filter
          (fun p => p.1 == od.id) = [] := by
        rw [List.filter_filter, List.filter_eq_nil_iff]
        intro p _
        simp
      have hpays : (db.payments.filter (fun p => !(p.1 == od.id))).filter
          (fun p => p.1 == od.id) = [] := by
        rw [List.filter_filter, List.filter_eq_nil_iff]
        intro p _
        simp
      simp only [hex, Bool.not_true, Bool.false_eq_true, if_false]
      rcases filter_key_append_map od.id (db.items.filter (fun p => !(p.1 == od.id)))
        od.order_items hitems with ⟨hi1, hi2⟩
      rcases filter_key_append_map od.id (db.payments.filter (fun p => !(p.1 == od.id)))
        od.payments hpays with ⟨hp1, hp2⟩
      have hii : (db.items.filter (fun p => !(p.1 == od.id))).filter
          (fun p => !(p.1 == od.id)) = db.items.filter (fun p => !(p.1 == od.id)) := by
        rw [List.filter_eq_self]
        intro a ha
        exact (List.mem_filter.mp ha).2
      have hpp : (db.payments.filter (fun p => !(p.1 == od.id))).filter
          (fun p => !(p.1 == od.id)) = db.payments.filter (fun p => !(p.1 == od.id)) := by
        rw [List.filter_eq_self]
        intro a ha
        exact (List.mem_filter.mp ha).2
      have hret : Orders.toOrderData
          { rows := db.rows.map
              (fun r => if r.id == od.id then Orders.rowOfOrderData od else r)
          , items := db.items.filter (fun p => !(p.1 == od.id))
              ++ od.order_items.map (fun it => (od.id, it))
          , payments := db.payments.filter (fun p => !(p.1 == od.id))
              ++ od.payments.map (fun p => (od.id, p)) }
          (Orders.rowOfOrderData od) = od := by
        unfold Orders.toOrderData Orders.rowOfOrderData
        dsimp only
        rw [hi1, hp1]
      refine ⟨_, by rw [hret], ?_, fun _ => rfl, hi1, hp1, ?_, ?_, ?_⟩
      · intro hcon
        unfold Orders.hasOrderId at hcon
        rw [hex] at hcon
        exact absurd hcon (by simp)
      · rw [hi2, hii]
      · rw [hp2, hpp]
      · unfold Orders.DBOrderRepository.get_by_user
        refine List.mem_map.mpr ⟨Orders.rowOfOrderData od, ?_, hret⟩
        refine List.mem_filter.mpr ⟨?_, by simp [Orders.rowOfOrderData]⟩
        rcases List.any_eq_true.mp hex with ⟨r, hmem, hr⟩
        have hmm := List.mem_map_of_mem
          (fun r => if r.id == od.id then Orders.rowOfOrderData od else r) hmem
        dsimp only [] at hmm
        rw [if_pos hr] at hmm
        exact hmm

/-- C4 witness: saving a concrete order for an existing user into the empty
database. -/
theorem C4_order_save_upsert_witness :
    (([1] : List Int).contains Samples.od1.meli_user_id = true
        ∧ Samples.odb0.integral)
      ∧ ∃ db1, Orders.DBOrderRepository.save [1] Samples.odb0 Samples.od1
            = some (db1, Samples.od1)
          ∧ (Orders.hasOrderId Samples.odb0 Samples.od1.id = false →
              db1.rows = Samples.odb0.rows ++ [Orders.rowOfOrderData Samples.od1])
          ∧ (Orders.hasOrderId Samples.odb0 Samples.od1.id = true →
              db1.rows = Samples.odb0.rows.map
                (fun r => if r.id == Samples.od1.id then Orders.rowOfOrderData Samples.od1 else r))
          ∧ (db1.items.filter (fun p => p.1 == Samples.od1.id)).map (fun p => p.2)
              = Samples.od1.order_items
          ∧ (db1.payments.filter (fun p => p.1 == Samples.od1.id)).map (fun p => p.2)
              = Samples.od1.payments
          ∧ db1.items.filter (fun p => !(p.1 == Samples.od1.id))
              = Samples.odb0.items.filter (fun p => !(p.1 == Samples.od1.id))
          ∧ db1.payments.filter (fun p => !(p.1 == Samples.od1.id))
              = Samples.odb0.payments.filter (fun p => !(p.1 == Samples.od1.id))
          ∧ Samples.od1 ∈ Orders.DBOrderRepository.get_by_user db1 Samples.od1.meli_user_id :=
  ⟨⟨by decide, by constructor <;> simp [Samples.odb0]⟩,
   C4_order_save_upsert [1] Samples.odb0 Samples.od1 (by decide)
     (by constructor <;> simp [Samples.odb0])⟩

/-- C6: token persistence keeps one token per user and always stores the
latest: every reachable token state has at most one row per MeliUser, this is
preserved by handle_callback, and after every handle_callback the stored row
for the exchanged token user equals that token, both when the row is created
and when it already existed. -/
theorem C6_one_latest_token_per_user (tokens : MyAuth.TokenDB)
    (h : MyAuth.TokenReachable tokens) (env : MyAuth.MeliEnv) (users : List Int)
    (code : String) :
    (tokens.map (fun r => r.meli_user_id)).Nodup
      ∧ (((MyAuth.MeliAuthService.handle_callback env users tokens code).tokens).map
          (fun r => r.meli_user_id)).Nodup
      ∧ MyAuth.findToken
            (MyAuth.MeliAuthService.handle_callback env users tokens code).tokens
            (env.token_for code).user_id
          = some (MyAuth.tokenRowOf (env.token_for code)) := by
  refine ⟨MyAuth.reachable_token_nodup tokens h, ?_, ?_⟩
  · rw [MyAuth.handle_callback_tokens]
    exact MyAuth.save_token_nodup tokens _ (MyAuth.reachable_token_nodup tokens h)
  · rw [MyAuth.handle_callback_tokens]
    exact MyAuth.save_token_find tokens _

/-- C6 witness: from the empty reachable token state, a callback stores
exactly the exchanged token for its user. -/
theorem C6_one_latest_token_per_user_witness :
    (([] : MyAuth.TokenDB).map (fun r => r.meli_user_id)).Nodup
      ∧ (((MyAuth.MeliAuthService.handle_callback Samples.env0 [] [] "c").tokens).map
          (fun r => r.meli_user_id)).Nodup
      ∧ MyAuth.findToken
            (MyAuth.MeliAuthService.handle_callback Samples.env0 [] [] "c").tokens
            (Samples.env0.token_for "c").user_id
          = some (MyAuth.tokenRowOf (Samples.env0.token_for "c")) :=
  C6_one_latest_token_per_user [] MyAuth.TokenReachable.init Samples.env0 [] "c"

/-- C7: MeliClient.get_token posts the authorization code with grant_type
authorization_code to the token endpoint, and every token it returns has
expires_at equal to the current UTC time plus the expires_in of the response,
which defaults to 3600 seconds when the response omits it. -/
theorem C7_token_exchange (s : Meli.Settings) (now : Int) (code : String)
    (resp : JValue) (tok : Meli.MeliToken)
    (h : (Meli.MeliClient.get_token s now code resp).2 = some tok) :
    (Meli.MeliClient.get_token s now code resp).1.method = "POST"
      ∧ (Meli.MeliClient.get_token s now code resp).1.url = Meli.tokenUrl
      ∧ ("grant_type", "authorization_code")
          ∈ (Meli.MeliClient.get_token s now code resp).1.body
      ∧ ("code", code) ∈ (Meli.MeliClient.get_token s now code resp).1.body
      ∧ tok.expires_at = now + Meli.respExpiresIn resp
      ∧ (∀ o, resp = JValue.jobj o → jlookup o "expires_in" = none →
          tok.expires_at = now + 3600) := by
  have hexp : tok.expires_at = now + Meli.respExpiresIn resp := by
    unfold Meli.MeliClient.get_token at h
    simp only [] at h
    cases resp with
    | jobj o =>
        simp only [] at h
        cases hl : jlookup o "expires_in" with
        | none =>
            rw [hl] at h
            cases hu : reqInt o "user_id" with
            | none => rw [hu] at h; simp at h
            | some uid =>
                rw [hu] at h
                cases ha : reqStr o "access_token" with
                | none => rw [ha] at h; simp at h
                | some access =>
                    rw [ha] at h
                    cases hr : reqStr o "refresh_token" with
                    | none => rw [hr] at h; simp at h
                    | some refresh =>
                        rw [hr] at h
                        simp at h
                        subst h
                        rfl
        | some v =>
            rw [hl] at h
            cases v with
            | jnum n =>
                cases hu : reqInt o "user_id" with
                | none => rw [hu] at h; simp at h
                | some uid =>
                    rw [hu] at h
                    cases ha : reqStr o "access_token" with
                    | none => rw [ha] at h; simp at h
                    | some access =>
                        rw [ha] at h
                        cases hr : reqStr o "refresh_token" with
                        | none => rw [hr] at h; simp at h
                        | some refresh =>
                            rw [hr] at h
                            simp at h
                            subst h
                            rfl
            | jnull => simp at h
            | jbool b => simp at h
            | jstr v => simp at h
            | jarr xs => simp at h
            | jobj f => simp at h
    | jnull => simp only [] at h; simp at h
    | jbool b => simp only [] at h; simp at h
    | jnum n => simp only [] at h; simp at h
    | jstr v => simp only [] at h; simp at h
    | jarr xs => simp only [] at h; simp at h
  refine ⟨rfl, rfl, ?_, ?_, hexp, ?_⟩
  · simp [Meli.MeliClient.get_token, Meli.instantiateTemplate,
      Meli.get_token_template, Meli.instantiateValue]
  · simp [Meli.MeliClient.get_token, Meli.instantiateTemplate,
      Meli.get_token_template, Meli.instantiateValue]
  · intro o ho hnone
    rw [hexp, ho]
    simp [Meli.respExpiresIn, hnone]

/-- C7 witness: a concrete response omitting expires_in parses to a token
expiring 3600 seconds after the current time. -/
theorem C7_token_exchange_witness :
    (Meli.MeliClient.get_token Samples.settings0 100 "c" Samples.respNoExpiry).2
        = some Samples.tokResp
      ∧ ((Meli.MeliClient.get_token Samples.settings0 100 "c"
            Samples.respNoExpiry).1.method = "POST"
          ∧ (Meli.MeliClient.get_token Samples.settings0 100 "c"
              Samples.respNoExpiry).1.url = Meli.tokenUrl
          ∧ ("grant_type", "authorization_code")
              ∈ (Meli.MeliClient.get_token Samples.settings0 100 "c"
                  Samples.respNoExpiry).1.body
          ∧ ("code", "c") ∈ (Meli.MeliClient.get_token Samples.settings0 100 "c"
              Samples.respNoExpiry).1.body
          ∧ Samples.tokResp.expires_at = 100 + Meli.respExpiresIn Samples.respNoExpiry
          ∧ (∀ o, Samples.respNoExpiry = JValue.jobj o →
              jlookup o "expires_in" = none →
              Samples.tokResp.expires_at = 100 + 3600)) :=
  ⟨by rfl,
   C7_token_exchange Samples.settings0 100 "c" Samples.respNoExpiry Samples.tokResp
     (by rfl)⟩

/-- C8 counterexample: the claim asserts an operation exists that uses the
stored refresh_token to obtain a new access token; in mercadolibre/client.py
no request the client can emit reads the refresh_token field at all, so no
such operation exists. -/
theorem C8_no_refresh_request :
    Meli.requestTemplates.filter
        (fun t => t.usesTokenField Meli.TokenField.refresh_token) = [] := by
  rfl

/-- C8 amended: the application performs no OAuth token refresh: no MeliClient
request reads the stored refresh_token, the only grant_type the client ever
sends is authorization_code, and refresh tokens are merely persisted by
save_token alongside the rest of the token. -/
theorem C8_exchange_only (tokens : MyAuth.TokenDB) (t : Meli.MeliToken) :
    Meli.requestTemplates.all
        (fun t => !(t.usesTokenField Meli.TokenField.refresh_token)) = true
      ∧ (Meli.get_token_template.body.find? (fun p => p.1 == "grant_type")).map
            (fun p => p.2) = some (Meli.DataValue.const "authorization_code")
      ∧ (MyAuth.findToken (MyAuth.DBUserRepository.save_token tokens t)
            t.user_id).map (fun r => r.refresh_token) = some t.refresh_token :=
  ⟨by rfl, by rfl, by rw [MyAuth.save_token_find]; rfl⟩

/-- C9: mark_as_read is idempotent: for every stored notification id it sets
read_at only when previously unset, leaves an already set read_at unchanged,
calling it twice leaves the state of calling it once, and the returned
notification always satisfies is_read. -/
theorem C9_mark_as_read_idempotent (db : Notifications.NotifDB) (now now2 : String)
    (nid : Int) (row : Notifications.NotifRow)
    (hfind : db.rows.find? (fun r => r.id == nid) = some row)
    (hwf : row.wfVariant) :
    ∃ db1 dto,
      Notifications.DBNotificationRepository.mark_as_read db now nid = some (db1, dto)
        ∧ dto.is_read = true
        ∧ (row.read_at.isSome = true → db1 = db)
        ∧ (row.read_at = none →
            db1.rows = db.rows.map
              (fun r => if r.id == nid then { row with read_at := some now } else r))
        ∧ (Notifications.DBNotificationRepository.mark_as_read db1 now2 nid).map
            (fun p => p.1) = some db1 := by
  have hprow : (row.id == nid) = true := by
    have h2 := List.find?_some hfind
    simpa using h2
  cases hra : row.read_at with
  | some t =>
      rcases Notifications.to_dto_of_wf row hwf with ⟨dto, hdto, hread, hid⟩
      refine ⟨db, dto, ?_, ?_, fun _ => rfl, ?_, ?_⟩
      · unfold Notifications.DBNotificationRepository.mark_as_read
        rw [hfind]
        simp only [hra, Option.isSome_some, Option.isNone_some, Bool.false_eq_true,
          if_false, hdto]
        rfl
      · unfold Notifications.NotificationData.is_read
        rw [hread, hra]
        rfl
      · intro hnone
        cases hnone
      · unfold Notifications.DBNotificationRepository.mark_as_read
        rw [hfind]
        simp only [hra, Option.isNone_some, Bool.false_eq_true, if_false, hdto]
        rfl
  | none =>
      have hwf1 : Notifications.NotifRow.wfVariant { row with read_at := some now } :=
        ⟨fun h => hwf.1 h, fun h => hwf.2 h⟩
      rcases Notifications.to_dto_of_wf { row with read_at := some now } hwf1
        with ⟨dto, hdto, hread, hid⟩
      refine ⟨{ db with
          rows := db.rows.map (fun r =>
            if r.id == nid then { row with read_at := some now } else r) },
        dto, ?_, ?_, ?_, fun _ => rfl, ?_⟩
      · unfold Notifications.DBNotificationRepository.mark_as_read
        rw [hfind]
        simp only [hra, Option.isNone_none, if_true, hdto]
        rfl
      · unfold Notifications.NotificationData.is_read
        rw [hread]
        rfl
      · intro hsome
        simp at hsome
      · have hfind1 : (db.rows.map
            (fun r => if r.id == nid then { row with read_at := some now } else r)).find?
              (fun r => r.id == nid) = some { row with read_at := some now } := by
          have := find?_map_update (fun r => r.id == nid)
            (fun _ => { row with read_at := some now }) db.rows row hfind hprow
          simpa using this
        unfold Notifications.DBNotificationRepository.mark_as_read
        dsimp only
        rw [hfind1]
        simp only [Option.isNone_some, Bool.false_eq_true, if_false, hdto]
        rfl

/-- C9 witness: marking the single unread question notification as read. -/
theorem C9_mark_as_read_idempotent_witness :
    (Samples.ndb1.rows.find? (fun r => r.id == (1 : Int)) = some Samples.notifRow1
        ∧ Samples.notifRow1.wfVariant)
      ∧ ∃ db1 dto,
          Notifications.DBNotificationRepository.mark_as_read Samples.ndb1 "n1" 1
              = some (db1, dto)
            ∧ dto.is_read = true
            ∧ (Samples.notifRow1.read_at.isSome = true → db1 = Samples.ndb1)
            ∧ (Samples.notifRow1.read_at = none →
                db1.rows = Samples.ndb1.rows.map
                  (fun r => if r.id == (1 : Int) then
                    { Samples.notifRow1 with read_at := some "n1" } else r))
            ∧ (Notifications.DBNotificationRepository.mark_as_read db1 "n2" 1).map
                (fun p => p.1) = some db1 :=
  ⟨⟨by rfl, by constructor <;> simp [Samples.notifRow1]⟩,
   C9_mark_as_read_idempotent Samples.ndb1 "n1" "n2" 1 Samples.notifRow1 (by rfl)
     (by constructor <;> simp [Samples.notifRow1])⟩

/-- C10: notification serialization is total under the type and variant
precondition: when the runtime variant matches the type field the repository
save never fails an isinstance assert, and every other type string falls back
to the base serializer, so save is still defined. -/
theorem C10_serialization_total (db : Notifications.NotifDB) (now : String)
    (dto : Notifications.NotificationData)
    (h1 : dto.type = "question" →
      ∃ qid, dto.variant = Notifications.NotifVariant.question qid)
    (h2 : dto.type = "order" →
      ∃ oid sc, dto.variant = Notifications.NotifVariant.order oid sc) :
    (Notifications.DBNotificationRepository.save db now dto).isSome = true
      ∧ (dto.type ≠ "question" → dto.type ≠ "order" →
          Notifications.get_serializer dto.type
            = Notifications.SerializerKind.baseSerializer) := by
  constructor
  · unfold Notifications.DBNotificationRepository.save
    by_cases hq : dto.type = "question"
    · rcases h1 hq with ⟨qid, hv⟩
      simp [Notifications.get_serializer, hq, Notifications.SerializerKind.to_model,
        Notifications.SerializerKind.to_dto, hv]
    · by_cases ho : dto.type = "order"
      · rcases h2 ho with ⟨oid, sc, hv⟩
        simp [Notifications.get_serializer, hq, ho,
          Notifications.SerializerKind.to_model,
          Notifications.SerializerKind.to_dto, hv]
      · simp [Notifications.get_serializer, hq, ho,
          Notifications.SerializerKind.to_model,
          Notifications.SerializerKind.to_dto]
  · intro hq ho
    unfold Notifications.get_serializer
    rw [if_neg hq, if_neg ho]

/-- C10 witness: saving a concrete question notification DTO succeeds. -/
theorem C10_serialization_total_witness :
    (Notifications.DBNotificationRepository.save Samples.ndb0 "t"
        Samples.qdto1).isSome = true
      ∧ (Samples.qdto1.type ≠ "question" → Samples.qdto1.type ≠ "order" →
          Notifications.get_serializer Samples.qdto1.type
            = Notifications.SerializerKind.baseSerializer) :=
  C10_serialization_total Samples.ndb0 "t" Samples.qdto1
    (fun _ => ⟨11, rfl⟩) (fun h => absurd h (by decide))

/-- C3 amended: the question_received receiver creates a notification of type
question referencing the question for the seller, and the order_synced
receiver creates a notification of type order referencing the order and its
status; however OrderSyncService.sync_orders and
QuestionSyncService.sync_questions dispatch no events, so synchronizing an
order or question does not by itself create any notification. -/
theorem C3_event_receivers_create_notifications (ndb : Notifications.NotifDB)
    (now : String) (uid qid oid : Int) (text status : String)
    (world : Orders.HttpWorld) (users : List Int) (odb : Orders.OrdersDB)
    (qdb : Questions.QuestionsDB) (token : Meli.MeliToken) :
    (∃ db1 dto,
        Notifications.on_question_received ndb now uid qid text = some (db1, dto)
          ∧ dto.type = "question"
          ∧ dto.variant = Notifications.NotifVariant.question qid
          ∧ dto.meli_user_id = uid
          ∧ db1.rows.length = ndb.rows.length + 1)
      ∧ (∃ db1 dto,
          Notifications.on_order_synced ndb now uid oid status = some (db1, dto)
            ∧ dto.type = "order"
            ∧ dto.variant = Notifications.NotifVariant.order oid status
            ∧ dto.meli_user_id = uid
            ∧ db1.rows.length = ndb.rows.length + 1)
      ∧ (Orders.OrderSyncService.sync_orders world users odb uid token).dispatched = []
      ∧ (Questions.QuestionSyncService.sync_questions world qdb uid token).dispatched
          = [] := by
  refine ⟨⟨_, _, rfl, rfl, rfl, rfl, by simp⟩, ⟨_, _, rfl, rfl, rfl, rfl, by simp⟩,
    rfl, rfl⟩

/-- C3 counterexample: a concrete sync run synchronizes one order for seller 7
yet dispatches no event, and delivering the dispatched events to the
notification receivers leaves the notification table unchanged: no
notification is created by synchronizing an order. -/
theorem C3_sync_creates_no_notification :
    ((Orders.OrderSyncService.sync_orders Samples.world1 [7] Samples.odb0 7
        Samples.token7).result).map (fun p => p.1) = some 1
      ∧ (Orders.OrderSyncService.sync_orders Samples.world1 [7] Samples.odb0 7
          Samples.token7).dispatched = []
      ∧ Notifications.processSyncEvents "t" Samples.ndb0
          (Orders.OrderSyncService.sync_orders Samples.world1 [7] Samples.odb0 7
            Samples.token7).dispatched = Samples.ndb0 :=
  ⟨by rfl, rfl, rfl⟩
